import Mathlib

/-!
Shallow embedding of `src/platform/qt_download.cpp` (class `QtDownload`).

The session is modelled as an explicit state (`DlState`) mirroring the
fields of `QtDownload` together with the on-disk contents of the temp
file and of the destination file, and a `step` function processing the
events delivered by the Qt transport layer: `readyRead`, progress,
`finished`, and destructor-driven abort.

The `QFile`/`QIODevice` collaborator is modelled after documented Qt 4
semantics, which the claims turn on:
  * `close()` resets the device position to 0 (`QIODevice::pos` is
    documented to return 0 for a closed device);
  * `write()` on a device that is not open fails and writes nothing;
  * `size()`, `remove()`, `rename()` and `resize()` operate through the
    file engine and work on a closed (but existing) file;
  * `open(WriteOnly)` truncates, `open(Append)` preserves content and
    positions at the end; `open` on an already-open file fails.

Network error codes follow `QNetworkReply::NetworkError`: 0 is no error,
codes 1..99 (up to `UnknownNetworkError = 99`) are the transient network
level errors, `ContentNotFoundError = 203`.
-/

/-- MAX_AUTOMATIC_RETRIES from qt_download.cpp. -/
def maxAutomaticRetries : Nat := 2

/-- QNetworkReply::UnknownNetworkError numeric value. -/
def unknownNetworkError : Nat := 99

/-- QNetworkReply::ContentNotFoundError numeric value. -/
def contentNotFoundError : Nat := 203

/-- Download result codes passed to the finish callback
(`EHttpDownloadOk` etc. in the source). -/
inductive Status where
  | ok
  | failed
  | fileNotFound
  | fileIsLocked
  deriving DecidableEq, Repr

/-- A caller-visible callback invocation: either the finish callback
`m_finish(url, status)` or the progress callback
`m_progress(url, (bytesRead, total))`. -/
inductive CbEvent where
  | finish (url : String) (st : Status)
  | progress (url : String) (bytesRead total : Int)
  deriving DecidableEq, Repr

/-- An HTTP request issued by `StartRequest`: the URL it targets and the
offset of the `Range: bytes=S-` header, when that header is set. -/
structure Request where
  url : String
  rangeFrom : Option Nat
  deriving DecidableEq, Repr

/-- Open mode of the `QFile` handle (`notOpen` means the handle exists
but the device is closed). -/
inductive OpenMode where
  | notOpen
  | append
  | writeOnly
  deriving DecidableEq, Repr

/-- The `QFile` handle state: its open mode and its device position.
Per Qt, the position is reset to 0 by `close()`. -/
structure FileHandle where
  mode : OpenMode
  pos : Nat
  deriving DecidableEq, Repr

/-- The whole session state: the `QtDownload` members, the disk contents
of the temp file and of the destination file, and the observable history
(callbacks invoked, requests issued). `terminated` records that the
object destroyed itself (`deleteLater`) or finished its destructor. -/
structure DlState where
  objectName : String
  currentUrl : String
  retryCounter : Nat
  httpRequestAborted : Bool
  mfile : Option FileHandle
  replyActive : Bool
  temp : Option (List Nat)
  dest : Option (List Nat)
  callbacks : List CbEvent
  requests : List Request
  terminated : Bool
  deriving DecidableEq, Repr

/-- Size of the temp file on disk (`m_file->size()`; works whether the
device is open or closed, 0 if the file does not exist). -/
def tempSize (s : DlState) : Nat := (s.temp.getD []).length

/-- `m_file->pos()` (0 when the handle is null or the device closed). -/
def filePos (s : DlState) : Nat := (s.mfile.map FileHandle.pos).getD 0

/-- `m_file->close()`: device mode becomes not-open and the position is
reset to 0; disk content is untouched. -/
def fileClose (s : DlState) : DlState :=
  { s with mfile := s.mfile.map fun _ => ⟨OpenMode.notOpen, 0⟩ }

/-- `m_file->write(bytes)`: appends to the file when the device is open
for writing, fails (writing nothing) when the device is not open. -/
def fileWrite (s : DlState) (bytes : List Nat) : DlState :=
  match s.mfile with
  | none => s
  | some h =>
    if h.mode = OpenMode.notOpen then s
    else
      { s with temp := some ((s.temp.getD []) ++ bytes),
               mfile := some ⟨h.mode, h.pos + bytes.length⟩ }

/-- `m_file->remove()`: closes the device and deletes the file. -/
def fileRemove (s : DlState) : DlState :=
  { s with temp := none, mfile := s.mfile.map fun _ => ⟨OpenMode.notOpen, 0⟩ }

/-- `m_file->open(QIODevice::WriteOnly)`: fails (no effect) when the
device is already open, otherwise truncates the file and opens it. -/
def fileOpenWriteOnly (s : DlState) : DlState :=
  match s.mfile with
  | none => s
  | some h =>
    if h.mode = OpenMode.notOpen then
      { s with temp := some [], mfile := some ⟨OpenMode.writeOnly, 0⟩ }
    else s

/-- `m_file->resize(0)`: truncates the file on disk to zero length. -/
def fileResizeZero (s : DlState) : DlState :=
  { s with temp := s.temp.map fun _ => [] }

/-- `QtDownload::StartRequest`: builds the request on `m_currentUrl`,
adding a `Range: bytes=S-` header exactly when the temp file's current
size S is positive, and issues it (a reply becomes active). -/
def startRequest (s : DlState) : DlState :=
  let sz := tempSize s
  { s with
    requests := s.requests ++ [⟨s.currentUrl, if 0 < sz then some sz else none⟩],
    replyActive := true }

/-- The events the Qt layer delivers to the session: a body chunk
(`OnHttpReadyRead`), a progress notification
(`OnUpdateDataReadProgress`), the terminal notification of one request
attempt (`OnHttpFinished`, carrying the network error code, the redirect
target if any, and whether a final rename would succeed), and the
destructor's abort. -/
inductive Ev where
  | readyRead (bytes : List Nat)
  | progressEv (bytesRead total : Int)
  | finishedEv (netError : Nat) (redirect : Option String) (renameOk : Bool)
  | abortEv
  deriving DecidableEq, Repr

/-- `QtDownload::OnHttpReadyRead`: writes the newly received bytes to
the file when both the file handle and the reply exist. -/
def onHttpReadyRead (s : DlState) (bytes : List Nat) : DlState :=
  if s.mfile.isSome ∧ s.replyActive then fileWrite s bytes else s

/-- `QtDownload::OnUpdateDataReadProgress`: forwards to the progress
callback unless the abort flag is set. -/
def onUpdateDataReadProgress (s : DlState) (bytesRead total : Int) : DlState :=
  if s.httpRequestAborted then s
  else { s with callbacks := s.callbacks ++ [CbEvent.progress s.objectName bytesRead total] }

/-- `QtDownload::OnHttpFinished`, line by line. Abort branch: close and
remove the temp file, release handles, no callback. Otherwise flush and
close, then branch on error / redirect / success exactly as the source
does: transient errors (code ≤ `UnknownNetworkError`) pre-increment the
retry counter and retry while it stays within budget; terminal failures
remove the temp file when `m_file->pos() == 0` and report
`failed`/`fileNotFound`; a redirect rewrites `m_currentUrl`, reopens the
file truncated, and reissues; success removes any existing destination
file, renames the temp file onto it (deleting the temp file and
reporting `fileIsLocked` when the rename fails) and reports the result. -/
def onHttpFinished (s : DlState) (netError : Nat) (redirect : Option String)
    (renameOk : Bool) : DlState :=
  if s.httpRequestAborted then
    { s with temp := none, mfile := none, replyActive := false, terminated := true }
  else
    let s1 := fileClose s
    if netError ≠ 0 then
      if netError ≤ unknownNetworkError ∧ s1.retryCounter + 1 ≤ maxAutomaticRetries then
        startRequest { s1 with retryCounter := s1.retryCounter + 1, replyActive := false }
      else
        let rc := if netError ≤ unknownNetworkError then s1.retryCounter + 1
                  else s1.retryCounter
        let s2 := { s1 with retryCounter := rc }
        let s3 := if filePos s2 = 0 then fileRemove s2 else s2
        { s3 with mfile := none, replyActive := false,
                  callbacks := s3.callbacks ++
                    [CbEvent.finish s3.objectName
                      (if netError = contentNotFoundError then Status.fileNotFound
                       else Status.failed)],
                  terminated := true }
    else
      match redirect with
      | some target =>
        let s2 := { s1 with currentUrl := target }
        let s3 := fileResizeZero (fileOpenWriteOnly s2)
        startRequest { s3 with replyActive := false }
      | none =>
        let s2 := { s1 with dest := none }
        if renameOk then
          { s2 with dest := s2.temp, temp := none, mfile := none, replyActive := false,
                    callbacks := s2.callbacks ++ [CbEvent.finish s2.objectName Status.ok],
                    terminated := true }
        else
          let s3 := fileRemove s2
          { s3 with mfile := none, replyActive := false,
                    callbacks := s3.callbacks ++
                      [CbEvent.finish s3.objectName Status.fileIsLocked],
                    terminated := true }

/-- One event delivered to the session; a destroyed session processes
nothing. The destructor (abort) only acts when a reply is in flight. -/
def step (s : DlState) (ev : Ev) : DlState :=
  if s.terminated then s
  else
    match ev with
    | Ev.readyRead bytes => onHttpReadyRead s bytes
    | Ev.progressEv br tot => onUpdateDataReadProgress s br tot
    | Ev.finishedEv e rd rn => onHttpFinished s e rd rn
    | Ev.abortEv => if s.replyActive then { s with httpRequestAborted := true } else s

/-- Folding a list of transport events over a session state. -/
def runEvents (s : DlState) (evs : List Ev) : DlState := evs.foldl step s

/-- `QtDownload::QtDownload` (the constructor, reached through
`StartDownload`): opens the temp file in append mode when `useResume` is
set and truncating write mode otherwise; when the open fails
(`openOk = false`) it reports `EHttpDownloadFailed` through the finish
callback and self-destructs without issuing any request; otherwise it
issues the first request via `StartRequest`. `preTemp` and `preDest` are
the on-disk contents of the temp file and of the destination file before
the session starts (`none` = absent). -/
def mkDownload (url : String) (useResume openOk : Bool)
    (preTemp preDest : Option (List Nat)) : DlState :=
  let base : DlState :=
    { objectName := url, currentUrl := url, retryCounter := 0,
      httpRequestAborted := false, mfile := none, replyActive := false,
      temp := preTemp, dest := preDest, callbacks := [], requests := [],
      terminated := false }
  if openOk then
    let opened :=
      if useResume then
        { base with temp := some (preTemp.getD []),
                    mfile := some ⟨OpenMode.append, (preTemp.getD []).length⟩ }
      else
        { base with temp := some [], mfile := some ⟨OpenMode.writeOnly, 0⟩ }
    startRequest opened
  else
    { base with callbacks := [CbEvent.finish url Status.failed], terminated := true }

/-- Is a callback invocation an invocation of the finish callback? -/
def isFinishCb : CbEvent → Bool
  | CbEvent.finish _ _ => true
  | CbEvent.progress _ _ _ => false

/-- Number of finish-callback invocations a session has made. -/
def nFin (s : DlState) : Nat := (s.callbacks.filter isFinishCb).length

/-! ### Concrete runs used by the claim analyses -/

/-- A run with one streamed chunk, one transient network error, a second
streamed chunk on the retried request, and a clean finish. The intended
full content of the resource is `[7, 8]`. -/
def c1Run : DlState :=
  runEvents (mkDownload "u" false true none none)
    [Ev.readyRead [7], Ev.finishedEv 5 none true,
     Ev.readyRead [8], Ev.finishedEv 0 none true]

/-- A run with one streamed chunk followed by a permanent network error
(code 200, above `UnknownNetworkError`). -/
def c2Run : DlState :=
  runEvents (mkDownload "u" false true none none)
    [Ev.readyRead [7], Ev.finishedEv 200 none true]

/-- A run with three consecutive transient network errors. -/
def c3Run : DlState :=
  runEvents (mkDownload "u" false true none none)
    [Ev.finishedEv 5 none true, Ev.finishedEv 5 none true, Ev.finishedEv 5 none true]

/-- Claim C1 (code bug): after a transient failure and a retry that
re-requests the same URL with the correct Range offset, the bytes
streamed on the retried attempt are lost — `OnHttpFinished` closed the
temp file and the retried request never reopens it, so `m_file->write`
fails — yet the session still reports `Ok` and publishes a destination
file holding only the first attempt's bytes `[7]`, not the full content
`[7, 8]`. -/
theorem claim_C1_retry_loses_streamed_bytes :
    c1Run.callbacks = [CbEvent.finish "u" Status.ok] ∧
    c1Run.requests = [⟨"u", none⟩, ⟨"u", some 1⟩] ∧
    c1Run.dest = some [7] ∧ c1Run.dest ≠ some [7, 8] := by
  decide

/-- Claim C2 (code bug): one byte had been written to the temp file when
the permanent error arrived, yet the temp file is deleted: the handler
closes the file before testing `m_file->pos() == 0`, and a closed
`QFile`'s position is always 0, so the `pos() == 0` test — meant, per the
comment above it, to keep resumable partial files — always succeeds and
the partial file is always removed. -/
theorem claim_C2_partial_temp_file_always_deleted :
    (runEvents (mkDownload "u" false true none none) [Ev.readyRead [7]]).temp = some [7] ∧
    c2Run.temp = none ∧
    c2Run.callbacks = [CbEvent.finish "u" Status.failed] := by
  decide

/-- Claim C3 counterexample: after the third transient error the
pre-increment `++m_retryCounter <= MAX_AUTOMATIC_RETRIES` has already
pushed the counter to 3, strictly above `maxAutomaticRetries = 2`, so
`retryCounter` does not stay bounded by `maxRetries`. -/
theorem claim_C3_retry_counter_exceeds_max :
    c3Run.retryCounter = 3 ∧ maxAutomaticRetries < c3Run.retryCounter := by
  decide

/-- Claim C9: when the temp-file open fails at construction the session
reports failure synchronously through exactly one finish invocation and
terminates without issuing any request; and when the open succeeds no
callback is invoked synchronously and exactly one request is issued. -/
theorem claim_C9_open_failure_synchronous :
    ∀ (url : String) (useResume : Bool) (preTemp preDest : Option (List Nat)),
    ((mkDownload url useResume false preTemp preDest).callbacks
        = [CbEvent.finish url Status.failed] ∧
     (mkDownload url useResume false preTemp preDest).terminated = true ∧
     (mkDownload url useResume false preTemp preDest).requests = [] ∧
     (mkDownload url useResume false preTemp preDest).replyActive = false) ∧
    ((mkDownload url useResume true preTemp preDest).callbacks = [] ∧
     (mkDownload url useResume true preTemp preDest).requests.length = 1 ∧
     (mkDownload url useResume true preTemp preDest).terminated = false) := by
  intro url r pt pd
  constructor
  · simp [mkDownload]
  · cases r <;> simp [mkDownload, startRequest]

/-! ### Basic lemmas about `step` -/

/-- A destroyed session processes no further events. -/
theorem step_of_terminated (s : DlState) (ev : Ev) (h : s.terminated = true) :
    step s ev = s := by
  simp [step, h]

/-- `fileWrite` only touches the temp-file content and the handle. -/
theorem fileWrite_eq (s : DlState) (b : List Nat) :
    ∃ t m, fileWrite s b = { s with temp := t, mfile := m } := by
  unfold fileWrite
  cases hm : s.mfile with
  | none => exact ⟨s.temp, s.mfile, rfl⟩
  | some fh =>
    by_cases hmo : fh.mode = OpenMode.notOpen
    · simp only [hmo, if_true]
      exact ⟨s.temp, s.mfile, rfl⟩
    · simp only [hmo, if_false]
      exact ⟨_, _, rfl⟩

/-- `onHttpReadyRead` only touches the temp-file content and the handle. -/
theorem onHttpReadyRead_eq (s : DlState) (b : List Nat) :
    ∃ t m, onHttpReadyRead s b = { s with temp := t, mfile := m } := by
  unfold onHttpReadyRead
  split
  · exact fileWrite_eq s b
  · exact ⟨s.temp, s.mfile, rfl⟩

/-- `fileOpenWriteOnly` only touches the temp-file content and the handle. -/
theorem fileOpenWriteOnly_eq (s : DlState) :
    ∃ t m, fileOpenWriteOnly s = { s with temp := t, mfile := m } := by
  unfold fileOpenWriteOnly
  cases hm : s.mfile with
  | none => exact ⟨s.temp, s.mfile, rfl⟩
  | some fh =>
    by_cases hmo : fh.mode = OpenMode.notOpen
    · simp only [hmo, if_true]
      exact ⟨_, _, rfl⟩
    · simp only [hmo, if_false]
      exact ⟨s.temp, s.mfile, rfl⟩

/-- The abort flag is never cleared by any event. -/
theorem step_abort_mono (s : DlState) (ev : Ev) (h : s.httpRequestAborted = true) :
    (step s ev).httpRequestAborted = true := by
  unfold step
  by_cases hT : s.terminated = true
  · simp [hT, h]
  · simp only [hT, Bool.false_eq_true, if_false]
    cases ev with
    | readyRead bytes =>
      dsimp only
      obtain ⟨t, m, he⟩ := onHttpReadyRead_eq s bytes
      rw [he]
      exact h
    | progressEv br tot => dsimp only; simp [onUpdateDataReadProgress, h]
    | finishedEv e rd rn => dsimp only; simp [onHttpFinished, h]
    | abortEv => dsimp only; split <;> simp [h]

/-- Once the abort flag is set, a step never adds callbacks and never
touches the destination file. -/
theorem step_aborted_frozen (s : DlState) (ev : Ev) (h : s.httpRequestAborted = true) :
    (step s ev).callbacks = s.callbacks ∧ (step s ev).dest = s.dest := by
  unfold step
  by_cases hT : s.terminated = true
  · simp [hT]
  · simp only [hT, Bool.false_eq_true, if_false]
    cases ev with
    | readyRead bytes =>
      dsimp only
      obtain ⟨t, m, he⟩ := onHttpReadyRead_eq s bytes
      rw [he]
      exact ⟨rfl, rfl⟩
    | progressEv br tot => dsimp only; simp [onUpdateDataReadProgress, h]
    | finishedEv e rd rn => dsimp only; simp [onHttpFinished, h]
    | abortEv => dsimp only; split <;> simp

/-- Claim C5: once the abort flag is set, no caller-visible callback
(neither finish nor progress) is invoked by any later event and the
destination file is never created or altered; on the terminal transport
notification the session only removes the temp file and releases the
transport handle. -/
theorem claim_C5_abort_suppresses_callbacks :
    ∀ (s : DlState) (evs : List Ev) (e : Nat) (rd : Option String) (rn : Bool),
    s.httpRequestAborted = true →
    ((runEvents s evs).callbacks = s.callbacks ∧ (runEvents s evs).dest = s.dest) ∧
    (s.terminated = false →
      (step s (Ev.finishedEv e rd rn)).temp = none ∧
      (step s (Ev.finishedEv e rd rn)).replyActive = false ∧
      (step s (Ev.finishedEv e rd rn)).mfile = none) := by
  intro s evs e rd rn h
  constructor
  · induction evs generalizing s with
    | nil => exact ⟨rfl, rfl⟩
    | cons ev rest ih =>
      have h2 := step_abort_mono s ev h
      have hf := step_aborted_frozen s ev h
      have hr := ih (step s ev) h2
      simp only [runEvents, List.foldl_cons] at hr ⊢
      exact ⟨hr.1.trans hf.1, hr.2.trans hf.2⟩
  · intro hT
    simp [step, hT, onHttpFinished, h]

/-- A state in which the session has streamed one byte and was then
aborted by its destructor while the reply was still in flight. -/
def c5Aborted : DlState :=
  runEvents (mkDownload "u" false true none none) [Ev.readyRead [7], Ev.abortEv]

/-- Witness for C5 at a concrete aborted state. -/
theorem claim_C5_witness :
    (runEvents c5Aborted [Ev.progressEv 1 2, Ev.finishedEv 5 none true]).callbacks
        = c5Aborted.callbacks ∧
    (runEvents c5Aborted [Ev.progressEv 1 2, Ev.finishedEv 5 none true]).dest
        = c5Aborted.dest ∧
    (step c5Aborted (Ev.finishedEv 5 none true)).temp = none ∧
    (step c5Aborted (Ev.finishedEv 5 none true)).replyActive = false := by
  have h := claim_C5_abort_suppresses_callbacks c5Aborted
    [Ev.progressEv 1 2, Ev.finishedEv 5 none true] 5 none true (by decide)
  exact ⟨h.1.1, h.1.2, (h.2 (by decide)).1, (h.2 (by decide)).2.1⟩

/-- Claim C4: a redirect notification (no network error, non-null
redirect target) rewrites `currentURL` to the target, truncates the temp
file to zero length and reopens it for writing (the handle is open in
write-only mode at position 0 after the step), leaves the retry counter
untouched, invokes no callback, reissues the request on the new URL
(with no Range header, the file now being empty), and does not terminate
the session. -/
theorem claim_C4_redirect_truncates_and_reissues :
    ∀ (s : DlState) (target : String) (rn : Bool),
    s.terminated = false → s.httpRequestAborted = false → s.mfile ≠ none →
    ((step s (Ev.finishedEv 0 (some target) rn)).currentUrl = target ∧
     (step s (Ev.finishedEv 0 (some target) rn)).temp = some [] ∧
     (step s (Ev.finishedEv 0 (some target) rn)).mfile
        = some ⟨OpenMode.writeOnly, 0⟩ ∧
     (step s (Ev.finishedEv 0 (some target) rn)).retryCounter = s.retryCounter ∧
     (step s (Ev.finishedEv 0 (some target) rn)).callbacks = s.callbacks ∧
     (step s (Ev.finishedEv 0 (some target) rn)).requests
        = s.requests ++ [⟨target, none⟩] ∧
     (step s (Ev.finishedEv 0 (some target) rn)).terminated = false) := by
  intro s target rn hT hA hF
  obtain ⟨fh, hm⟩ := Option.ne_none_iff_exists'.mp hF
  simp [step, hT, onHttpFinished, hA, fileClose, hm, fileOpenWriteOnly,
        fileResizeZero, startRequest, tempSize]

/-- Witness for C4 at a fresh session state. -/
theorem claim_C4_witness :
    (step (mkDownload "u" false true none none) (Ev.finishedEv 0 (some "v") true)).currentUrl
        = "v" ∧
    (step (mkDownload "u" false true none none) (Ev.finishedEv 0 (some "v") true)).temp
        = some [] ∧
    (step (mkDownload "u" false true none none) (Ev.finishedEv 0 (some "v") true)).mfile
        = some ⟨OpenMode.writeOnly, 0⟩ ∧
    (step (mkDownload "u" false true none none) (Ev.finishedEv 0 (some "v") true)).retryCounter
        = (mkDownload "u" false true none none).retryCounter ∧
    (step (mkDownload "u" false true none none) (Ev.finishedEv 0 (some "v") true)).requests
        = (mkDownload "u" false true none none).requests ++ [⟨"v", none⟩] ∧
    (step (mkDownload "u" false true none none) (Ev.finishedEv 0 (some "v") true)).terminated
        = false := by
  have h := claim_C4_redirect_truncates_and_reissues (mkDownload "u" false true none none)
    "v" true (by decide) (by decide) (by decide)
  exact ⟨h.1, h.2.1, h.2.2.1, h.2.2.2.1, h.2.2.2.2.2.1, h.2.2.2.2.2.2⟩

/-- Claim C6: on clean success the pre-existing destination file is
removed unconditionally before the rename; if the rename succeeds the
destination holds exactly the downloaded bytes and `Ok` is reported; if
the rename fails the temp file is deleted anyway, the destination is
left absent (never corrupted or partial), and `FileLocked` is reported;
either way the session terminates. -/
theorem claim_C6_finalize_replaces_destination :
    ∀ (s : DlState) (c : List Nat) (rn : Bool),
    s.terminated = false → s.httpRequestAborted = false → s.temp = some c →
    ((step s (Ev.finishedEv 0 none rn)).terminated = true ∧
     (rn = true →
       (step s (Ev.finishedEv 0 none rn)).dest = some c ∧
       (step s (Ev.finishedEv 0 none rn)).temp = none ∧
       (step s (Ev.finishedEv 0 none rn)).callbacks
          = s.callbacks ++ [CbEvent.finish s.objectName Status.ok]) ∧
     (rn = false →
       (step s (Ev.finishedEv 0 none rn)).dest = none ∧
       (step s (Ev.finishedEv 0 none rn)).temp = none ∧
       (step s (Ev.finishedEv 0 none rn)).callbacks
          = s.callbacks ++ [CbEvent.finish s.objectName Status.fileIsLocked])) := by
  intro s c rn hT hA hTemp
  cases rn <;> simp [step, hT, onHttpFinished, hA, fileClose, fileRemove, hTemp]

/-- A state that has streamed one byte and is about to finalize. -/
def c6Streamed : DlState :=
  runEvents (mkDownload "u" false true none (some [9, 9])) [Ev.readyRead [7]]

/-- Witness for C6: the pre-existing destination content `[9, 9]` is
replaced by the downloaded byte `[7]` on a successful rename. -/
theorem claim_C6_witness :
    (step c6Streamed (Ev.finishedEv 0 none true)).terminated = true ∧
    (step c6Streamed (Ev.finishedEv 0 none true)).dest = some [7] ∧
    (step c6Streamed (Ev.finishedEv 0 none true)).temp = none ∧
    (step c6Streamed (Ev.finishedEv 0 none true)).callbacks
        = c6Streamed.callbacks ++ [CbEvent.finish c6Streamed.objectName Status.ok] := by
  have h := claim_C6_finalize_replaces_destination c6Streamed [7] true
    (by decide) (by decide) (by decide)
  exact ⟨h.1, (h.2.1 rfl).1, (h.2.1 rfl).2.1, (h.2.1 rfl).2.2⟩

/-- The device position of a just-closed file handle is 0 (this is what
defeats the `pos() == 0` test in the terminal-failure branch). -/
theorem filePos_closed (s : DlState) (rc : Nat) :
    filePos { s with mfile := s.mfile.map fun _ => ⟨OpenMode.notOpen, 0⟩,
                     retryCounter := rc } = 0 := by
  cases s.mfile <;> rfl

/-- Retry branch of `OnHttpFinished`: transient error within budget. -/
theorem onHttpFinished_retry (s : DlState) (e : Nat) (rd : Option String) (rn : Bool)
    (hA : s.httpRequestAborted = false) (he : 1 ≤ e) (htr : e ≤ unknownNetworkError)
    (hrc : s.retryCounter + 1 ≤ maxAutomaticRetries) :
    onHttpFinished s e rd rn =
      { s with mfile := s.mfile.map fun _ => ⟨OpenMode.notOpen, 0⟩,
               retryCounter := s.retryCounter + 1,
               replyActive := true,
               requests := s.requests ++
                 [⟨s.currentUrl, if 0 < tempSize s then some (tempSize s) else none⟩] } := by
  have he0 : e ≠ 0 := by omega
  simp [onHttpFinished, hA, he0, htr, hrc, fileClose, startRequest, tempSize]

/-- Terminal-failure branch of `OnHttpFinished`: permanent error, or a
transient error with the budget exhausted. The closed file's position is
0, so the temp file is always removed here. -/
theorem onHttpFinished_fail (s : DlState) (e : Nat) (rd : Option String) (rn : Bool)
    (hA : s.httpRequestAborted = false) (he : 1 ≤ e)
    (hterm : unknownNetworkError < e ∨ maxAutomaticRetries < s.retryCounter + 1) :
    onHttpFinished s e rd rn =
      { s with mfile := none, temp := none,
               retryCounter := if e ≤ unknownNetworkError then s.retryCounter + 1
                               else s.retryCounter,
               replyActive := false,
               callbacks := s.callbacks ++
                 [CbEvent.finish s.objectName
                   (if e = contentNotFoundError then Status.fileNotFound
                    else Status.failed)],
               terminated := true } := by
  have he0 : e ≠ 0 := by omega
  by_cases htr : e ≤ unknownNetworkError
  · have hrc : ¬(s.retryCounter + 1 ≤ maxAutomaticRetries) := by omega
    cases hm : s.mfile <;>
      simp [onHttpFinished, hA, he0, htr, hrc, fileClose, fileRemove, filePos, hm]
  · cases hm : s.mfile <;>
      simp [onHttpFinished, hA, he0, htr, fileClose, fileRemove, filePos, hm]

/-- Redirect branch of `OnHttpFinished`: no error, redirect target set. -/
theorem onHttpFinished_redirect (s : DlState) (target : String) (rn : Bool)
    (hA : s.httpRequestAborted = false) :
    onHttpFinished s 0 (some target) rn =
      { s with currentUrl := target,
               temp := if s.mfile = none then s.temp.map (fun _ => []) else some [],
               mfile := if s.mfile = none then none else some ⟨OpenMode.writeOnly, 0⟩,
               replyActive := true,
               requests := s.requests ++ [⟨target, none⟩] } := by
  cases hm : s.mfile with
  | none =>
    cases ht : s.temp <;>
      simp [onHttpFinished, hA, fileClose, fileOpenWriteOnly, fileResizeZero,
            startRequest, tempSize, hm, ht]
  | some fh =>
    simp [onHttpFinished, hA, fileClose, fileOpenWriteOnly, fileResizeZero,
          startRequest, tempSize, hm]

/-- Success branch of `OnHttpFinished` with a successful rename: the
destination receives the temp file's bytes and `Ok` is reported. -/
theorem onHttpFinished_renameOk (s : DlState)
    (hA : s.httpRequestAborted = false) :
    onHttpFinished s 0 none true =
      { s with mfile := none, dest := s.temp, temp := none, replyActive := false,
               callbacks := s.callbacks ++ [CbEvent.finish s.objectName Status.ok],
               terminated := true } := by
  simp [onHttpFinished, hA, fileClose]

/-- Success branch of `OnHttpFinished` with a failed rename: the temp
file is removed, the destination stays absent, `FileLocked` reported. -/
theorem onHttpFinished_renameFail (s : DlState)
    (hA : s.httpRequestAborted = false) :
    onHttpFinished s 0 none false =
      { s with mfile := none, dest := none, temp := none, replyActive := false,
               callbacks := s.callbacks ++ [CbEvent.finish s.objectName Status.fileIsLocked],
               terminated := true } := by
  cases hm : s.mfile <;> simp [onHttpFinished, hA, fileClose, fileRemove, hm]

/-- Any single event either leaves the retry counter unchanged or
increments it by exactly one, the latter only for a terminal transport
notification carrying a transient network error (code in
1..`UnknownNetworkError`); in particular redirects never change it and
nothing ever resets it. -/
theorem step_retry_change (s : DlState) (ev : Ev) :
    (step s ev).retryCounter = s.retryCounter ∨
    ((step s ev).retryCounter = s.retryCounter + 1 ∧
     ∃ e rd rn, ev = Ev.finishedEv e rd rn ∧ 1 ≤ e ∧ e ≤ unknownNetworkError) := by
  by_cases hT : s.terminated = true
  · rw [step_of_terminated s ev hT]; exact Or.inl rfl
  · have hT' : s.terminated = false := by simpa using hT
    unfold step
    simp only [hT', Bool.false_eq_true, if_false]
    cases ev with
    | readyRead b =>
      dsimp only
      obtain ⟨t, m, he⟩ := onHttpReadyRead_eq s b
      rw [he]; exact Or.inl rfl
    | progressEv br tot =>
      dsimp only
      unfold onUpdateDataReadProgress
      split <;> exact Or.inl rfl
    | abortEv =>
      dsimp only
      split <;> exact Or.inl rfl
    | finishedEv e rd rn =>
      dsimp only
      by_cases hA : s.httpRequestAborted = true
      · unfold onHttpFinished; rw [if_pos hA]; exact Or.inl rfl
      · have hA' : s.httpRequestAborted = false := by simpa using hA
        by_cases he : e = 0
        · subst he
          cases rd with
          | some t => rw [onHttpFinished_redirect s t rn hA']; exact Or.inl rfl
          | none =>
            cases rn with
            | false => rw [onHttpFinished_renameFail s hA']; exact Or.inl rfl
            | true => rw [onHttpFinished_renameOk s hA']; exact Or.inl rfl
        · have he1 : 1 ≤ e := Nat.one_le_iff_ne_zero.mpr he
          by_cases htr : e ≤ unknownNetworkError
          · by_cases hrc : s.retryCounter + 1 ≤ maxAutomaticRetries
            · rw [onHttpFinished_retry s e rd rn hA' he1 htr hrc]
              exact Or.inr ⟨rfl, e, rd, rn, rfl, he1, htr⟩
            · rw [onHttpFinished_fail s e rd rn hA' he1 (Or.inr (by omega))]
              refine Or.inr ⟨?_, e, rd, rn, rfl, he1, htr⟩
              simp [htr]
          · rw [onHttpFinished_fail s e rd rn hA' he1 (Or.inl (by omega))]
            left; simp [htr]

/-- The retry-counter invariant the code actually maintains: at most
`maxAutomaticRetries`, except that a session terminated by retry
exhaustion holds `maxAutomaticRetries + 1`. -/
def RetryInv (s : DlState) : Prop :=
  s.retryCounter ≤ maxAutomaticRetries ∨
  (s.retryCounter = maxAutomaticRetries + 1 ∧ s.terminated = true)

/-- `RetryInv` is preserved by every event. -/
theorem retryInv_step (s : DlState) (ev : Ev) (h : RetryInv s) : RetryInv (step s ev) := by
  by_cases hT : s.terminated = true
  · rw [step_of_terminated s ev hT]; exact h
  · have hT' : s.terminated = false := by simpa using hT
    have hle : s.retryCounter ≤ maxAutomaticRetries := by
      rcases h with h | ⟨_, ht⟩
      · exact h
      · rw [hT'] at ht; cases ht
    unfold step
    simp only [hT', Bool.false_eq_true, if_false]
    cases ev with
    | readyRead b =>
      dsimp only
      obtain ⟨t, m, he⟩ := onHttpReadyRead_eq s b
      rw [he]; exact Or.inl hle
    | progressEv br tot =>
      dsimp only
      unfold onUpdateDataReadProgress
      split <;> exact Or.inl hle
    | abortEv =>
      dsimp only
      split <;> exact Or.inl hle
    | finishedEv e rd rn =>
      dsimp only
      by_cases hA : s.httpRequestAborted = true
      · unfold onHttpFinished; rw [if_pos hA]; exact Or.inl hle
      · have hA' : s.httpRequestAborted = false := by simpa using hA
        by_cases he : e = 0
        · subst he
          cases rd with
          | some t => rw [onHttpFinished_redirect s t rn hA']; exact Or.inl hle
          | none =>
            cases rn with
            | false => rw [onHttpFinished_renameFail s hA']; exact Or.inl hle
            | true => rw [onHttpFinished_renameOk s hA']; exact Or.inl hle
        · have he1 : 1 ≤ e := Nat.one_le_iff_ne_zero.mpr he
          by_cases htr : e ≤ unknownNetworkError
          · by_cases hrc : s.retryCounter + 1 ≤ maxAutomaticRetries
            · rw [onHttpFinished_retry s e rd rn hA' he1 htr hrc]
              exact Or.inl hrc
            · rw [onHttpFinished_fail s e rd rn hA' he1 (Or.inr (by omega))]
              refine Or.inr ⟨?_, rfl⟩
              have hmax : maxAutomaticRetries = 2 := rfl
              unfold RetryInv at *
              simp only [RetryInv]
              show (if e ≤ unknownNetworkError then s.retryCounter + 1
                    else s.retryCounter) = maxAutomaticRetries + 1
              rw [if_pos htr]
              omega
          · rw [onHttpFinished_fail s e rd rn hA' he1 (Or.inl (by omega))]
            left
            show (if e ≤ unknownNetworkError then s.retryCounter + 1
                  else s.retryCounter) ≤ maxAutomaticRetries
            rw [if_neg htr]
            exact hle

/-- `RetryInv` holds along every run. -/
theorem retryInv_run (s : DlState) (evs : List Ev) (h : RetryInv s) :
    RetryInv (runEvents s evs) := by
  induction evs generalizing s with
  | nil => exact h
  | cons ev rest ih =>
    simp only [runEvents, List.foldl_cons]
    exact ih (step s ev) (retryInv_step s ev h)

/-- Claim C3, amended: `retryCounter` starts at 0, changes only by
single increments triggered by transient-error terminal notifications
(never by redirects, never reset), and stays at most
`maxAutomaticRetries` as long as the session is alive; it can reach
`maxAutomaticRetries + 1` — exceeding the budget by one — exactly
when the exhausting transient error terminates the session. -/
theorem claim_C3_retry_counter_amended :
    ∀ (url : String) (useResume openOk : Bool) (preTemp preDest : Option (List Nat))
      (evs : List Ev),
    (mkDownload url useResume openOk preTemp preDest).retryCounter = 0 ∧
    (runEvents (mkDownload url useResume openOk preTemp preDest) evs).retryCounter
        ≤ maxAutomaticRetries + 1 ∧
    ((runEvents (mkDownload url useResume openOk preTemp preDest) evs).retryCounter
        ≤ maxAutomaticRetries ∨
     (runEvents (mkDownload url useResume openOk preTemp preDest) evs).terminated = true) ∧
    (∀ ev,
      (step (runEvents (mkDownload url useResume openOk preTemp preDest) evs) ev).retryCounter
          = (runEvents (mkDownload url useResume openOk preTemp preDest) evs).retryCounter ∨
      ((step (runEvents (mkDownload url useResume openOk preTemp preDest) evs) ev).retryCounter
          = (runEvents (mkDownload url useResume openOk preTemp preDest) evs).retryCounter + 1 ∧
       ∃ e rd rn, ev = Ev.finishedEv e rd rn ∧ 1 ≤ e ∧ e ≤ unknownNetworkError)) := by
  intro url r ok pt pd evs
  have h0 : (mkDownload url r ok pt pd).retryCounter = 0 := by
    cases ok <;> cases r <;> simp [mkDownload, startRequest]
  have hinv : RetryInv (runEvents (mkDownload url r ok pt pd) evs) :=
    retryInv_run _ evs (Or.inl (by rw [h0]; exact Nat.zero_le _))
  refine ⟨h0, ?_, ?_, fun ev => step_retry_change _ ev⟩
  · rcases hinv with h | ⟨h, _⟩
    · omega
    · omega
  · rcases hinv with h | ⟨h, ht⟩
    · exact Or.inl h
    · exact Or.inr ht

/-- Appending a progress invocation does not change the number of
finish invocations. -/
theorem nFin_append_progress (cb : List CbEvent) (u : String) (br tot : Int) :
    (List.filter isFinishCb (cb ++ [CbEvent.progress u br tot])).length
      = (List.filter isFinishCb cb).length := by
  simp [List.filter_append, isFinishCb]

/-- Appending a finish invocation increments the number of finish
invocations by one. -/
theorem nFin_append_finish (cb : List CbEvent) (u : String) (st : Status) :
    (List.filter isFinishCb (cb ++ [CbEvent.finish u st])).length
      = (List.filter isFinishCb cb).length + 1 := by
  simp [List.filter_append, isFinishCb]

/-- Invariant behind claim C7: a live non-aborted session has made no
finish invocation yet, and a terminated non-aborted session has made
exactly one. -/
def FinInv (s : DlState) : Prop :=
  s.httpRequestAborted = false →
  ((s.terminated = true ∧ nFin s = 1) ∨ (s.terminated = false ∧ nFin s = 0))

/-- `FinInv` is preserved by every event. -/
theorem finInv_step (s : DlState) (ev : Ev) (h : FinInv s) : FinInv (step s ev) := by
  intro hA2
  have hA : s.httpRequestAborted = false := by
    by_cases hx : s.httpRequestAborted = true
    · rw [step_abort_mono s ev hx] at hA2; cases hA2
    · simpa using hx
  by_cases hT : s.terminated = true
  · rw [step_of_terminated s ev hT]; exact h hA
  · have hT' : s.terminated = false := by simpa using hT
    have h0 : nFin s = 0 := by
      rcases h hA with ⟨ht, _⟩ | ⟨_, hn⟩
      · rw [hT'] at ht; cases ht
      · exact hn
    unfold step
    simp only [hT', Bool.false_eq_true, if_false]
    cases ev with
    | readyRead b =>
      dsimp only
      obtain ⟨t, m, he⟩ := onHttpReadyRead_eq s b
      rw [he]; exact Or.inr ⟨hT', h0⟩
    | progressEv br tot =>
      dsimp only
      unfold onUpdateDataReadProgress
      rw [if_neg (by simp [hA])]
      refine Or.inr ⟨hT', ?_⟩
      show (List.filter isFinishCb (s.callbacks ++ [CbEvent.progress s.objectName br tot])).length = 0
      rw [nFin_append_progress]
      exact h0
    | abortEv =>
      dsimp only
      by_cases hR : s.replyActive = true
      · exfalso
        simp [step, hT', hR] at hA2
      · rw [if_neg (by simp [hR])]
        exact Or.inr ⟨hT', h0⟩
    | finishedEv e rd rn =>
      dsimp only
      have hA' : s.httpRequestAborted = false := hA
      by_cases he : e = 0
      · subst he
        cases rd with
        | some t =>
          rw [onHttpFinished_redirect s t rn hA']
          exact Or.inr ⟨hT', h0⟩
        | none =>
          cases rn with
          | false =>
            rw [onHttpFinished_renameFail s hA']
            refine Or.inl ⟨rfl, ?_⟩
            show (List.filter isFinishCb
              (s.callbacks ++ [CbEvent.finish s.objectName Status.fileIsLocked])).length = 1
            rw [nFin_append_finish]
            simp only [nFin] at h0
            omega
          | true =>
            rw [onHttpFinished_renameOk s hA']
            refine Or.inl ⟨rfl, ?_⟩
            show (List.filter isFinishCb
              (s.callbacks ++ [CbEvent.finish s.objectName Status.ok])).length = 1
            rw [nFin_append_finish]
            simp only [nFin] at h0
            omega
      · have he1 : 1 ≤ e := Nat.one_le_iff_ne_zero.mpr he
        by_cases htr : e ≤ unknownNetworkError
        · by_cases hrc : s.retryCounter + 1 ≤ maxAutomaticRetries
          · rw [onHttpFinished_retry s e rd rn hA' he1 htr hrc]
            exact Or.inr ⟨hT', h0⟩
          · rw [onHttpFinished_fail s e rd rn hA' he1 (Or.inr (by omega))]
            refine Or.inl ⟨rfl, ?_⟩
            show (List.filter isFinishCb (s.callbacks ++
              [CbEvent.finish s.objectName
                (if e = contentNotFoundError then Status.fileNotFound
                 else Status.failed)])).length = 1
            rw [nFin_append_finish]
            simp only [nFin] at h0
            omega
        · rw [onHttpFinished_fail s e rd rn hA' he1 (Or.inl (by omega))]
          refine Or.inl ⟨rfl, ?_⟩
          show (List.filter isFinishCb (s.callbacks ++
            [CbEvent.finish s.objectName
              (if e = contentNotFoundError then Status.fileNotFound
               else Status.failed)])).length = 1
          rw [nFin_append_finish]
          simp only [nFin] at h0
          omega

/-- `FinInv` holds along every run started by the constructor. -/
theorem finInv_run (s : DlState) (evs : List Ev) (h : FinInv s) :
    FinInv (runEvents s evs) := by
  induction evs generalizing s with
  | nil => exact h
  | cons ev rest ih =>
    simp only [runEvents, List.foldl_cons]
    exact ih (step s ev) (finInv_step s ev h)

/-- Claim C7: a session that is not aborted makes at most one finish
invocation, exactly one by the time it terminates, and every status it
ever reports is one of Ok, Failed, FileNotFound, FileLocked; retries and
redirects produce no caller-visible callback of their own. -/
theorem claim_C7_single_terminal_callback :
    ∀ (url : String) (useResume openOk : Bool) (preTemp preDest : Option (List Nat))
      (evs : List Ev),
    (runEvents (mkDownload url useResume openOk preTemp preDest) evs).httpRequestAborted
        = false →
    (nFin (runEvents (mkDownload url useResume openOk preTemp preDest) evs) ≤ 1 ∧
     ((runEvents (mkDownload url useResume openOk preTemp preDest) evs).terminated = true →
       nFin (runEvents (mkDownload url useResume openOk preTemp preDest) evs) = 1) ∧
     (∀ (u : String) (st : Status),
       CbEvent.finish u st
           ∈ (runEvents (mkDownload url useResume openOk preTemp preDest) evs).callbacks →
       st = Status.ok ∨ st = Status.failed ∨ st = Status.fileNotFound ∨
       st = Status.fileIsLocked)) := by
  intro url r ok pt pd evs hA
  have hi : FinInv (mkDownload url r ok pt pd) := by
    intro _
    cases ok with
    | false =>
      refine Or.inl ⟨by simp [mkDownload], ?_⟩
      cases r <;> simp [mkDownload, nFin, isFinishCb]
    | true =>
      refine Or.inr ⟨?_, ?_⟩
      · cases r <;> simp [mkDownload, startRequest]
      · cases r <;> simp [mkDownload, startRequest, nFin]
  have hrun := finInv_run _ evs hi hA
  refine ⟨?_, ?_, ?_⟩
  · rcases hrun with ⟨_, hn⟩ | ⟨_, hn⟩ <;> omega
  · intro hTerm
    rcases hrun with ⟨_, hn⟩ | ⟨ht, _⟩
    · exact hn
    · rw [hTerm] at ht; cases ht
  · intro u st _
    cases st with
    | ok => exact Or.inl rfl
    | failed => exact Or.inr (Or.inl rfl)
    | fileNotFound => exact Or.inr (Or.inr (Or.inl rfl))
    | fileIsLocked => exact Or.inr (Or.inr (Or.inr rfl))

/-- Witness for C7: a completed non-aborted session made exactly one
finish invocation. -/
theorem claim_C7_witness :
    nFin (runEvents (mkDownload "u" false true none none) [Ev.finishedEv 0 none true]) = 1 := by
  have h := claim_C7_single_terminal_callback "u" false true none none
    [Ev.finishedEv 0 none true] (by decide)
  exact h.2.1 (by decide)

/-- Claim C8: every event either issues no request or issues exactly one
request on the session's current URL whose Range header is present, with
offset equal to the temp file's size, exactly when that size is positive
(the size and URL after the step are those the request was built from);
and a session started with resume on an existing temp file of size S > 0
issues its first request with Range offset S. -/
theorem claim_C8_range_header_iff_nonempty_temp :
    ∀ (s : DlState) (ev : Ev),
    ((step s ev).requests = s.requests ∨
     (step s ev).requests = s.requests ++
       [⟨(step s ev).currentUrl,
         if 0 < tempSize (step s ev) then some (tempSize (step s ev)) else none⟩]) ∧
    (∀ (url : String) (pre : List Nat) (preDest : Option (List Nat)),
      0 < pre.length →
      (mkDownload url true true (some pre) preDest).requests = [⟨url, some pre.length⟩]) := by
  intro s ev
  constructor
  · by_cases hT : s.terminated = true
    · rw [step_of_terminated s ev hT]; exact Or.inl rfl
    · have hT' : s.terminated = false := by simpa using hT
      unfold step
      simp only [hT', Bool.false_eq_true, if_false]
      cases ev with
      | readyRead b =>
        dsimp only
        obtain ⟨t, m, he⟩ := onHttpReadyRead_eq s b
        rw [he]; exact Or.inl rfl
      | progressEv br tot =>
        dsimp only
        unfold onUpdateDataReadProgress
        split <;> exact Or.inl rfl
      | abortEv =>
        dsimp only
        split <;> exact Or.inl rfl
      | finishedEv e rd rn =>
        dsimp only
        by_cases hA : s.httpRequestAborted = true
        · unfold onHttpFinished; rw [if_pos hA]; exact Or.inl rfl
        · have hA' : s.httpRequestAborted = false := by simpa using hA
          by_cases he : e = 0
          · subst he
            cases rd with
            | some t =>
              cases hm : s.mfile with
              | none =>
                rw [onHttpFinished_redirect s t rn hA']
                right
                cases ht : s.temp <;> simp [hm, ht, tempSize]
              | some fh =>
                rw [onHttpFinished_redirect s t rn hA']
                right
                simp [hm, tempSize]
            | none =>
              cases rn with
              | false => rw [onHttpFinished_renameFail s hA']; exact Or.inl rfl
              | true => rw [onHttpFinished_renameOk s hA']; exact Or.inl rfl
          · have he1 : 1 ≤ e := Nat.one_le_iff_ne_zero.mpr he
            by_cases htr : e ≤ unknownNetworkError
            · by_cases hrc : s.retryCounter + 1 ≤ maxAutomaticRetries
              · rw [onHttpFinished_retry s e rd rn hA' he1 htr hrc]
                exact Or.inr rfl
              · rw [onHttpFinished_fail s e rd rn hA' he1 (Or.inr (by omega))]
                exact Or.inl rfl
            · rw [onHttpFinished_fail s e rd rn hA' he1 (Or.inl (by omega))]
              exact Or.inl rfl
  · intro url pre preDest hpre
    simp [mkDownload, startRequest, tempSize, hpre]

/-- Witness for C8: a resumed session over a 2-byte temp file issues its
first request with Range offset 2. -/
theorem claim_C8_witness :
    (mkDownload "u" true true (some [5, 6]) none).requests = [⟨"u", some 2⟩] := by
  have h := claim_C8_range_header_iff_nonempty_temp
    (mkDownload "u" true true (some [5, 6]) none) Ev.abortEv
  exact h.2 "u" [5, 6] none (by decide)

/-- Every redirect notification keeps the session alive and non-aborted,
adds no callback, leaves the retry counter unchanged, and issues exactly
one more request. -/
theorem redirect_run_frozen (ts : List String) (s : DlState)
    (hT : s.terminated = false) (hA : s.httpRequestAborted = false) :
    (runEvents s (ts.map fun t => Ev.finishedEv 0 (some t) true)).terminated = false ∧
    (runEvents s (ts.map fun t => Ev.finishedEv 0 (some t) true)).httpRequestAborted = false ∧
    (runEvents s (ts.map fun t => Ev.finishedEv 0 (some t) true)).callbacks = s.callbacks ∧
    (runEvents s (ts.map fun t => Ev.finishedEv 0 (some t) true)).retryCounter
        = s.retryCounter ∧
    (runEvents s (ts.map fun t => Ev.finishedEv 0 (some t) true)).requests.length
        = s.requests.length + ts.length := by
  induction ts generalizing s with
  | nil => exact ⟨hT, hA, rfl, rfl, rfl⟩
  | cons t rest ih =>
    have hstep : step s (Ev.finishedEv 0 (some t) true) = onHttpFinished s 0 (some t) true := by
      simp [step, hT]
    simp only [List.map_cons, runEvents, List.foldl_cons]
    rw [hstep, onHttpFinished_redirect s t true hA]
    have h2 := ih { s with currentUrl := t,
                           temp := if s.mfile = none then s.temp.map (fun _ => []) else some [],
                           mfile := if s.mfile = none then none
                                    else some ⟨OpenMode.writeOnly, 0⟩,
                           replyActive := true,
                           requests := s.requests ++ [⟨t, none⟩] } hT hA
    simp only [runEvents] at h2
    refine ⟨h2.1, h2.2.1, h2.2.2.1, h2.2.2.2.1, ?_⟩
    rw [h2.2.2.2.2]
    simp
    omega

/-- Claim C10: redirect-driven reissues are unbounded — for any number
of consecutive redirect notifications the session is still alive, has
invoked no callback (in particular no finish callback), has consumed
none of the retry budget, and has issued one request per redirect plus
the initial one. -/
theorem claim_C10_redirects_unbounded :
    ∀ (url : String) (useResume : Bool) (preTemp preDest : Option (List Nat))
      (targets : List String),
    (runEvents (mkDownload url useResume true preTemp preDest)
        (targets.map fun t => Ev.finishedEv 0 (some t) true)).terminated = false ∧
    (runEvents (mkDownload url useResume true preTemp preDest)
        (targets.map fun t => Ev.finishedEv 0 (some t) true)).callbacks = [] ∧
    (runEvents (mkDownload url useResume true preTemp preDest)
        (targets.map fun t => Ev.finishedEv 0 (some t) true)).retryCounter = 0 ∧
    (runEvents (mkDownload url useResume true preTemp preDest)
        (targets.map fun t => Ev.finishedEv 0 (some t) true)).requests.length
        = targets.length + 1 := by
  intro url r pt pd ts
  have hT : (mkDownload url r true pt pd).terminated = false := by
    cases r <;> simp [mkDownload, startRequest]
  have hA : (mkDownload url r true pt pd).httpRequestAborted = false := by
    cases r <;> simp [mkDownload, startRequest]
  have hcb : (mkDownload url r true pt pd).callbacks = [] := by
    cases r <;> simp [mkDownload, startRequest]
  have hrc : (mkDownload url r true pt pd).retryCounter = 0 := by
    cases r <;> simp [mkDownload, startRequest]
  have hrq : (mkDownload url r true pt pd).requests.length = 1 := by
    cases r <;> simp [mkDownload, startRequest]
  obtain ⟨h1, _, h3, h4, h5⟩ := redirect_run_frozen ts (mkDownload url r true pt pd) hT hA
  refine ⟨h1, ?_, ?_, ?_⟩
  · rw [h3, hcb]
  · rw [h4, hrc]
  · rw [h5, hrq]; omega
